import Mathlib

/-!
Shallow embedding of the Moira .NET host adapter (`src/Moira/Moira_dotnet.cpp`
and `src/Moira/Moira_dotnet.h`): the callback contract, the host adapter with
its deferred bus-error slot, and the flat boundary surface, together with
theorems about the fault-delivery protocol, construction validation, and
stack-frame marshalling.

Machine integers are modelled as `Nat` (no arithmetic is performed on them by
the adapter, so no wraparound can occur); the embedder's state reachable
through the callbacks is an abstract world type `σ`; the C++ exception thrown
for a bus error is modelled as an `Except.error` result carrying the frame.
Each operation additionally records a trace of observable events (callback
invocations, default pacing, exception raising) so that ordering claims can
be stated.
-/

/-- IrqMode of the external engine; the constructor sets it to `USER`. -/
inductive IrqMode : Type
  | AUTO
  | USER
  | SPURIOUS
  | UNINITIALIZED
deriving Repr, DecidableEq

/-- Modelled from the spec: register state of the external instruction engine
(`moira::Moira`), which is not part of this repository.  The spec (section 4.4
and section 6) describes the engine-state accessors as direct get/set pairs
with no validation, so the engine is modelled as a plain record of registers
read and written directly. -/
structure EngineState : Type where
  clock : Int
  dregs : List Nat
  aregs : List Nat
  pc : Nat
  pc0 : Nat
  irc : Nat
  ird : Nat
  sr : Nat
  sp : Nat
  ipl : Nat
  irqMode : IrqMode
deriving Repr, DecidableEq

/-- Modelled from the spec: the engine's built-in default pacing behavior
(`moira::Moira::sync`), an external collaborator contract (spec section 4.2);
modelled as advancing the engine clock by the given cycle count.  Theorems
about the fallback rely only on the trace event, not on this definition's
particular effect. -/
def EngineState.defaultSync (e : EngineState) (cycles : Int) : EngineState :=
  { e with clock := e.clock + cycles }

/-- The callback contract (`moira_callbacks` in `Moira_dotnet.h`): an opaque
context value plus six function references, any of which may be absent
(NULL), operating on the embedder's world `σ`.  The opaque context pointer is
modelled as a `Nat` identifier. -/
structure moira_callbacks (σ : Type) : Type where
  user : Nat
  read8 : Option (Nat → Nat → σ → Nat × σ)
  read16 : Option (Nat → Nat → σ → Nat × σ)
  write8 : Option (Nat → Nat → Nat → σ → σ)
  write16 : Option (Nat → Nat → Nat → σ → σ)
  sync : Option (Nat → Int → σ → σ)
  readIrqUserVector : Option (Nat → Nat → σ → Nat × σ)

/-- All four required callback references are present (the condition
`moira_create` checks). -/
def moira_callbacks.requiredPresent (cb : moira_callbacks σ) : Bool :=
  cb.read8.isSome && cb.read16.isSome && cb.write8.isSome && cb.write16.isSome

/-- The frame carried by the thrown `moira::BusError` exception: exactly the
five fields `throwPendingBusErrorIfNeeded` fills in
(`Moira_dotnet.cpp` lines 25-32). -/
structure BusErrorFrame : Type where
  code : Nat
  addr : Nat
  ird : Nat
  sr : Nat
  pc : Nat
deriving Repr, DecidableEq

/-- The `moira_stackframe` struct of `Moira_dotnet.h` used by the
stack-frame marshalling surface. -/
structure moira_stackframe : Type where
  code : Nat
  addr : Nat
  ird : Nat
  sr : Nat
  pc : Nat
  fc : Nat
  ssw : Nat
deriving Repr, DecidableEq

/-- The host adapter (`class MoiraHost`): the copied callback contract, the
deferred bus-error slot (`pendingBusError`, `busErrorAddress`,
`busErrorIsWrite`), and the state of the inherited engine. -/
structure MoiraHost (σ : Type) : Type where
  cb : moira_callbacks σ
  pendingBusError : Bool
  busErrorAddress : Nat
  busErrorIsWrite : Bool
  engine : EngineState

/-- The `MoiraHost` constructor (`Moira_dotnet.cpp` lines 37-41): copies the
contract, initialises the pending-fault slot to absent, and sets the engine's
IRQ mode to `USER`. -/
def MoiraHost.init (cbs : moira_callbacks σ) (engine0 : EngineState) : MoiraHost σ :=
  { cb := cbs
    pendingBusError := false
    busErrorAddress := 0
    busErrorIsWrite := false
    engine := { engine0 with irqMode := IrqMode.USER } }

/-- The frame built by `throwPendingBusErrorIfNeeded` from the pending slot
and the engine's current register values: `code` is 0x0000 for a write fault
and 0x0010 for a read fault. -/
def MoiraHost.pendingFrame (h : MoiraHost σ) : BusErrorFrame :=
  { code := if h.busErrorIsWrite then 0x0000 else 0x0010
    addr := h.busErrorAddress
    ird := h.engine.ird
    sr := h.engine.sr
    pc := h.engine.pc }

/-- Observable events of an adapter operation: forwarding to a callback
(with the context value passed), falling back to default pacing, or raising
the bus-error exception. -/
inductive Event : Type
  | cbRead8 (user addr result : Nat)
  | cbRead16 (user addr result : Nat)
  | cbWrite8 (user addr v : Nat)
  | cbWrite16 (user addr v : Nat)
  | cbSync (user : Nat) (cycles : Int)
  | defaultPacing (cycles : Int)
  | cbReadIrqUserVector (user level result : Nat)
  | raiseBusError (f : BusErrorFrame)
deriving Repr, DecidableEq

/-- An event is the raising of the bus-error exception (fault delivery). -/
def Event.isDelivery : Event → Bool
  | .raiseBusError _ => true
  | _ => false

/-- An event is a forwarding step: a callback invocation or default pacing. -/
def Event.isForward : Event → Bool
  | .raiseBusError _ => false
  | _ => true

/-- The context value an event passed to a callback, if it invoked one. -/
def Event.userOf : Event → Option Nat
  | .cbRead8 u _ _ => some u
  | .cbRead16 u _ _ => some u
  | .cbWrite8 u _ _ => some u
  | .cbWrite16 u _ _ => some u
  | .cbSync u _ => some u
  | .defaultPacing _ => none
  | .cbReadIrqUserVector u _ _ => some u
  | .raiseBusError _ => none

/-- Result of one adapter operation: the returned value or the thrown
bus-error frame, the adapter state after the call, the embedder world after
the call, and the trace of observable events in order. -/
structure OpResult (σ α : Type) : Type where
  result : Except BusErrorFrame α
  host : MoiraHost σ
  world : σ
  trace : List Event

/-- `MoiraHost::throwPendingBusErrorIfNeeded` (`Moira_dotnet.cpp` lines
20-34): if a fault is pending, clears the pending flag and raises a
`BusError` carrying `pendingFrame`; the first component is the raised frame
(if any), the second the adapter state afterwards. -/
def MoiraHost.throwPendingBusErrorIfNeeded (h : MoiraHost σ) :
    Option BusErrorFrame × MoiraHost σ :=
  if h.pendingBusError then
    (some h.pendingFrame, { h with pendingBusError := false })
  else
    (none, h)

/-- `MoiraHost::read8` (lines 50-54): forwards to the `read8` callback with
the stored context, then runs the pending-fault check; a delivered fault is
thrown after the callback returned, discarding the read result.  The callback
is required; the `Option.getD` default is unreachable for adapters built by
`moira_create`, which rejects contracts lacking it. -/
def MoiraHost.read8 (h : MoiraHost σ) (addr : Nat) (w : σ) : OpResult σ Nat :=
  let p := (h.cb.read8.getD (fun _ _ w0 => (0, w0))) h.cb.user addr w
  let t := h.throwPendingBusErrorIfNeeded
  match t.1 with
  | some f =>
      ⟨Except.error f, t.2, p.2, [Event.cbRead8 h.cb.user addr p.1, Event.raiseBusError f]⟩
  | none =>
      ⟨Except.ok p.1, t.2, p.2, [Event.cbRead8 h.cb.user addr p.1]⟩

/-- `MoiraHost::read16` (lines 56-60): same shape as `read8`. -/
def MoiraHost.read16 (h : MoiraHost σ) (addr : Nat) (w : σ) : OpResult σ Nat :=
  let p := (h.cb.read16.getD (fun _ _ w0 => (0, w0))) h.cb.user addr w
  let t := h.throwPendingBusErrorIfNeeded
  match t.1 with
  | some f =>
      ⟨Except.error f, t.2, p.2, [Event.cbRead16 h.cb.user addr p.1, Event.raiseBusError f]⟩
  | none =>
      ⟨Except.ok p.1, t.2, p.2, [Event.cbRead16 h.cb.user addr p.1]⟩

/-- `MoiraHost::write8` (lines 62-65): forwards to the `write8` callback,
then runs the pending-fault check. -/
def MoiraHost.write8 (h : MoiraHost σ) (addr v : Nat) (w : σ) : OpResult σ Unit :=
  let w2 := (h.cb.write8.getD (fun _ _ _ w0 => w0)) h.cb.user addr v w
  let t := h.throwPendingBusErrorIfNeeded
  match t.1 with
  | some f =>
      ⟨Except.error f, t.2, w2, [Event.cbWrite8 h.cb.user addr v, Event.raiseBusError f]⟩
  | none =>
      ⟨Except.ok (), t.2, w2, [Event.cbWrite8 h.cb.user addr v]⟩

/-- `MoiraHost::write16` (lines 67-70): same shape as `write8`. -/
def MoiraHost.write16 (h : MoiraHost σ) (addr v : Nat) (w : σ) : OpResult σ Unit :=
  let w2 := (h.cb.write16.getD (fun _ _ _ w0 => w0)) h.cb.user addr v w
  let t := h.throwPendingBusErrorIfNeeded
  match t.1 with
  | some f =>
      ⟨Except.error f, t.2, w2, [Event.cbWrite16 h.cb.user addr v, Event.raiseBusError f]⟩
  | none =>
      ⟨Except.ok (), t.2, w2, [Event.cbWrite16 h.cb.user addr v]⟩

/-- `MoiraHost::sync` (lines 43-48): runs the pending-fault check FIRST; if
no fault was delivered it forwards to the `sync` callback when present and
otherwise falls back to the engine's default pacing. -/
def MoiraHost.sync (h : MoiraHost σ) (cycles : Int) (w : σ) : OpResult σ Unit :=
  let t := h.throwPendingBusErrorIfNeeded
  match t.1 with
  | some f => ⟨Except.error f, t.2, w, [Event.raiseBusError f]⟩
  | none =>
      match h.cb.sync with
      | some f =>
          ⟨Except.ok (), t.2, f h.cb.user cycles w, [Event.cbSync h.cb.user cycles]⟩
      | none =>
          ⟨Except.ok (), { t.2 with engine := t.2.engine.defaultSync cycles }, w,
            [Event.defaultPacing cycles]⟩

/-- `MoiraHost::readIrqUserVector` (lines 72-74): forwards when the optional
callback is present, otherwise returns 0; no fault check, no adapter-state
change.  Returns the vector, the world, and the trace. -/
def MoiraHost.readIrqUserVector (h : MoiraHost σ) (level : Nat) (w : σ) :
    Nat × σ × List Event :=
  match h.cb.readIrqUserVector with
  | some f =>
      ((f h.cb.user level w).1, (f h.cb.user level w).2,
        [Event.cbReadIrqUserVector h.cb.user level (f h.cb.user level w).1])
  | none => (0, w, [])

/-- `MoiraHost::scheduleBusError` (lines 76-80): records the fault in the
single pending slot, overwriting any unconsumed one. -/
def MoiraHost.scheduleBusError (h : MoiraHost σ) (faultaddress : Nat) (isWrite : Bool) :
    MoiraHost σ :=
  { h with pendingBusError := true
           busErrorAddress := faultaddress
           busErrorIsWrite := isWrite }

/-- `moira_create` (lines 90-100): returns null when the contract pointer or
any of the four required callbacks is absent; otherwise allocates the
adapter, returning null when allocation throws (`allocOk = false`). -/
def moira_create (cb : Option (moira_callbacks σ)) (allocOk : Bool)
    (engine0 : EngineState) : Option (MoiraHost σ) :=
  match cb with
  | none => none
  | some c =>
      if c.read8.isNone || c.read16.isNone || c.write8.isNone || c.write16.isNone then
        none
      else if allocOk then
        some (MoiraHost.init c engine0)
      else
        none

/-- `moira_triggerBusError` (lines 113-115): the boundary-surface entry for
scheduling a bus fault. -/
def moira_triggerBusError (h : MoiraHost σ) (faultaddress : Nat) (isWrite : Bool) :
    MoiraHost σ :=
  h.scheduleBusError faultaddress isWrite

/-- `moira_getStackFrame` (lines 173-184): with a null frame pointer, a
no-op; otherwise overwrites the caller's buffer with a frame built from live
engine state, zero-filling `code`, `addr`, `fc` and `ssw`.  The returned
value is the buffer's contents after the call. -/
def moira_getStackFrame (h : MoiraHost σ) (frame : Option moira_stackframe) :
    Option moira_stackframe :=
  match frame with
  | none => none
  | some _ =>
      some { code := 0
             addr := 0
             ird := h.engine.ird
             sr := h.engine.sr
             pc := h.engine.pc
             fc := 0
             ssw := 0 }

/-- `moira_setStackFrame` (lines 186-193): with a null frame pointer, a
no-op; otherwise writes only `ird`, `sr` and `pc` back into the engine. -/
def moira_setStackFrame (h : MoiraHost σ) (frame : Option moira_stackframe) :
    MoiraHost σ :=
  match frame with
  | none => h
  | some f =>
      { h with engine := { h.engine with ird := f.ird, sr := f.sr, pc := f.pc } }

/-- An access operation the engine can make on the adapter: the four memory
accesses and cycle sync. -/
inductive AccessOp : Type
  | read8 (addr : Nat)
  | read16 (addr : Nat)
  | write8 (addr v : Nat)
  | write16 (addr v : Nat)
  | sync (cycles : Int)
deriving Repr, DecidableEq

/-- An access operation is a memory read or write (not sync). -/
def AccessOp.isMemAccess : AccessOp → Bool
  | .sync _ => false
  | _ => true

/-- Dispatch one access operation on the adapter, discarding the read
value (it remains visible in the trace). -/
def MoiraHost.runAccess (h : MoiraHost σ) (op : AccessOp) (w : σ) : OpResult σ Unit :=
  match op with
  | .read8 a =>
      let r := h.read8 a w
      ⟨r.result.map (fun _ => ()), r.host, r.world, r.trace⟩
  | .read16 a =>
      let r := h.read16 a w
      ⟨r.result.map (fun _ => ()), r.host, r.world, r.trace⟩
  | .write8 a v => h.write8 a v w
  | .write16 a v => h.write16 a v w
  | .sync c => h.sync c w

/-- Run a sequence of access operations, stopping at the first thrown
bus error (which in the C++ propagates as an exception); traces are
concatenated. -/
def MoiraHost.runAccessSeq (h : MoiraHost σ) (ops : List AccessOp) (w : σ) :
    OpResult σ Unit :=
  match ops with
  | [] => ⟨Except.ok (), h, w, []⟩
  | op :: rest =>
      let r := h.runAccess op w
      match r.result with
      | Except.error f => ⟨Except.error f, r.host, r.world, r.trace⟩
      | Except.ok _ =>
          let r2 := r.host.runAccessSeq rest r.world
          ⟨r2.result, r2.host, r2.world, r.trace ++ r2.trace⟩

/-- A non-access boundary-surface operation: the register/clock setters and
the stack-frame marshalling calls, none of which performs a memory access or
sync.  Getters are pure and omitted. -/
inductive NonAccessOp : Type
  | setClock (v : Int)
  | setD (n v : Nat)
  | setA (n v : Nat)
  | setPC (v : Nat)
  | setPC0 (v : Nat)
  | setIRC (v : Nat)
  | setIRD (v : Nat)
  | setCCR (v : Nat)
  | setSR (v : Nat)
  | setSP (v : Nat)
  | setIPL (v : Nat)
  | getStackFrame (buf : Option moira_stackframe)
  | setStackFrame (f : Option moira_stackframe)

/-- Modelled from the spec: the non-access boundary operations
(`moira_setClock`, `moira_setD`, ..., `moira_getStackFrame`,
`moira_setStackFrame`) as state transformers on the adapter.  The register
setters are the external engine's direct set accessors (spec section 4.4);
`setCCR` writes the condition-code byte of the status register. -/
def MoiraHost.runNonAccess (h : MoiraHost σ) : NonAccessOp → MoiraHost σ
  | .setClock v => { h with engine := { h.engine with clock := v } }
  | .setD n v => { h with engine := { h.engine with dregs := h.engine.dregs.set n v } }
  | .setA n v => { h with engine := { h.engine with aregs := h.engine.aregs.set n v } }
  | .setPC v => { h with engine := { h.engine with pc := v } }
  | .setPC0 v => { h with engine := { h.engine with pc0 := v } }
  | .setIRC v => { h with engine := { h.engine with irc := v } }
  | .setIRD v => { h with engine := { h.engine with ird := v } }
  | .setCCR v =>
      { h with engine := { h.engine with sr := h.engine.sr - h.engine.sr % 256 + v % 256 } }
  | .setSR v => { h with engine := { h.engine with sr := v } }
  | .setSP v => { h with engine := { h.engine with sp := v } }
  | .setIPL v => { h with engine := { h.engine with ipl := v } }
  | .getStackFrame _ => h
  | .setStackFrame f => moira_setStackFrame h f

/-- Run a sequence of non-access operations. -/
def MoiraHost.runNonAccessSeq (h : MoiraHost σ) : List NonAccessOp → MoiraHost σ
  | [] => h
  | op :: rest => (h.runNonAccess op).runNonAccessSeq rest

/-- Auxiliary scan: `seen` records whether a forwarding event has occurred
strictly earlier in the trace; every delivery event must be preceded by one. -/
def forwardBeforeDeliveryAux : Bool → List Event → Bool
  | _, [] => true
  | seen, e :: rest =>
      if Event.isDelivery e then seen && forwardBeforeDeliveryAux seen rest
      else forwardBeforeDeliveryAux (seen || Event.isForward e) rest

/-- Every fault delivery in the trace is preceded by a forwarding event (a
callback invocation or default pacing). -/
def forwardBeforeDelivery (tr : List Event) : Bool :=
  forwardBeforeDeliveryAux false tr

/-- Concrete embedder world-free callback contract used to evaluate the
theorems on concrete inputs: all four required callbacks and the optional
`sync` callback present, `readIrqUserVector` absent. -/
def cbW : moira_callbacks Unit :=
  { user := 7
    read8 := some (fun _ a _ => (a % 256, ()))
    read16 := some (fun _ _ _ => (0x1234, ()))
    write8 := some (fun _ _ _ _ => ())
    write16 := some (fun _ _ _ _ => ())
    sync := some (fun _ _ w0 => w0)
    readIrqUserVector := none }

/-- Concrete engine state matching the spec's concrete scenario (section 8):
PC = 0x1000, SR = 0x2700, IRD = 0x4E71. -/
def e0W : EngineState :=
  { clock := 0
    dregs := List.replicate 8 0
    aregs := List.replicate 8 0
    pc := 0x1000
    pc0 := 0x1000
    irc := 0
    ird := 0x4E71
    sr := 0x2700
    sp := 0
    ipl := 0
    irqMode := IrqMode.AUTO }

/-- Concrete freshly constructed adapter. -/
def hostW : MoiraHost Unit := MoiraHost.init cbW e0W

/-- Concrete adapter with a read fault at 0xABCDEF scheduled. -/
def scheduledHostW : MoiraHost Unit := hostW.scheduleBusError 0xABCDEF false

/-- The frame the spec's concrete scenario expects to be delivered. -/
def frameW : BusErrorFrame :=
  { code := 0x0010, addr := 0xABCDEF, ird := 0x4E71, sr := 0x2700, pc := 0x1000 }

/-- Concrete access sequence used to evaluate the no-fault safety theorem. -/
def opsW : List AccessOp :=
  [AccessOp.read8 0x200, AccessOp.write16 0x300 5, AccessOp.sync 2,
    AccessOp.read16 0x400, AccessOp.write8 0x500 1]

/-- Concrete adapter with a read fault at 0xABCDEF scheduled and the optional
sync callback absent. -/
def scheduledNoSyncHostW : MoiraHost Unit :=
  (MoiraHost.init { cbW with sync := none } e0W).scheduleBusError 0xABCDEF false

lemma requiredPresent_eq_not_isNone (c : moira_callbacks σ) :
    c.requiredPresent =
      !(c.read8.isNone || c.read16.isNone || c.write8.isNone || c.write16.isNone) := by
  cases h8 : c.read8 <;> cases h16 : c.read16 <;> cases hw8 : c.write8 <;>
    cases hw16 : c.write16 <;>
    simp [moira_callbacks.requiredPresent, h8, h16, hw8, hw16]

lemma moira_create_isSome (c : moira_callbacks σ) (k : Bool) (e0 : EngineState) :
    (moira_create (some c) k e0).isSome = (c.requiredPresent && k) := by
  rw [requiredPresent_eq_not_isNone]
  by_cases hcond :
      (c.read8.isNone || c.read16.isNone || c.write8.isNone || c.write16.isNone) = true
  · simp [moira_create, hcond]
  · rw [Bool.not_eq_true] at hcond
    cases k <;> simp [moira_create, hcond]

lemma moira_create_some_eq (c : moira_callbacks σ) (k : Bool) (e0 : EngineState)
    (h : MoiraHost σ) (hc : moira_create (some c) k e0 = some h) :
    h = MoiraHost.init c e0 ∧ c.requiredPresent = true ∧ k = true := by
  by_cases hcond :
      (c.read8.isNone || c.read16.isNone || c.write8.isNone || c.write16.isNone) = true
  · simp [moira_create, hcond] at hc
  · rw [Bool.not_eq_true] at hcond
    cases k with
    | false => simp [moira_create, hcond] at hc
    | true =>
        simp [moira_create, hcond] at hc
        exact ⟨hc.symm, by rw [requiredPresent_eq_not_isNone, hcond]; rfl, rfl⟩

lemma runNonAccess_slot (h : MoiraHost σ) (op : NonAccessOp) :
    (h.runNonAccess op).pendingBusError = h.pendingBusError
    ∧ (h.runNonAccess op).busErrorAddress = h.busErrorAddress
    ∧ (h.runNonAccess op).busErrorIsWrite = h.busErrorIsWrite
    ∧ (h.runNonAccess op).cb = h.cb := by
  cases op with
  | setStackFrame f =>
      cases f <;> exact ⟨rfl, rfl, rfl, rfl⟩
  | _ => exact ⟨rfl, rfl, rfl, rfl⟩

lemma runNonAccessSeq_slot (ops : List NonAccessOp) :
    ∀ (h : MoiraHost σ),
      (h.runNonAccessSeq ops).pendingBusError = h.pendingBusError
      ∧ (h.runNonAccessSeq ops).busErrorAddress = h.busErrorAddress
      ∧ (h.runNonAccessSeq ops).busErrorIsWrite = h.busErrorIsWrite
      ∧ (h.runNonAccessSeq ops).cb = h.cb := by
  induction ops with
  | nil => exact fun h => ⟨rfl, rfl, rfl, rfl⟩
  | cons op rest ih =>
      intro h
      obtain ⟨p1, p2, p3, p4⟩ := runNonAccess_slot h op
      obtain ⟨q1, q2, q3, q4⟩ := ih (h.runNonAccess op)
      exact ⟨q1.trans p1, q2.trans p2, q3.trans p3, q4.trans p4⟩

lemma runAccess_idle (h : MoiraHost σ) (op : AccessOp) (w : σ)
    (hp : h.pendingBusError = false) :
    (h.runAccess op w).result = Except.ok ()
    ∧ (h.runAccess op w).trace.filter Event.isDelivery = []
    ∧ (h.runAccess op w).host.pendingBusError = false := by
  cases op with
  | read8 a =>
      simp [MoiraHost.runAccess, MoiraHost.read8,
        MoiraHost.throwPendingBusErrorIfNeeded, hp, Event.isDelivery, Except.map]
  | read16 a =>
      simp [MoiraHost.runAccess, MoiraHost.read16,
        MoiraHost.throwPendingBusErrorIfNeeded, hp, Event.isDelivery, Except.map]
  | write8 a v =>
      simp [MoiraHost.runAccess, MoiraHost.write8,
        MoiraHost.throwPendingBusErrorIfNeeded, hp, Event.isDelivery, Except.map]
  | write16 a v =>
      simp [MoiraHost.runAccess, MoiraHost.write16,
        MoiraHost.throwPendingBusErrorIfNeeded, hp, Event.isDelivery, Except.map]
  | sync c =>
      cases hs : h.cb.sync <;>
        simp [MoiraHost.runAccess, MoiraHost.sync,
          MoiraHost.throwPendingBusErrorIfNeeded, hp, hs, Event.isDelivery]

lemma runAccessSeq_idle (ops : List AccessOp) :
    ∀ (h : MoiraHost σ) (w : σ), h.pendingBusError = false →
      (h.runAccessSeq ops w).result = Except.ok ()
      ∧ (h.runAccessSeq ops w).trace.filter Event.isDelivery = []
      ∧ (h.runAccessSeq ops w).host.pendingBusError = false := by
  induction ops with
  | nil => exact fun h w hp => ⟨rfl, rfl, hp⟩
  | cons op rest ih =>
      intro h w hp
      obtain ⟨h1, h2, h3⟩ := runAccess_idle h op w hp
      obtain ⟨g1, g2, g3⟩ := ih (h.runAccess op w).host (h.runAccess op w).world h3
      refine ⟨?_, ?_, ?_⟩
      · simp only [MoiraHost.runAccessSeq, h1]
        exact g1
      · simp only [MoiraHost.runAccessSeq, h1]
        simp [List.filter_append, h2, g2]
      · simp only [MoiraHost.runAccessSeq, h1]
        exact g3

/-- C3: for every pair of schedule operations with no intervening access or
sync, the composite state equals the state after the second schedule alone:
at most one fault is pending, holding the second fault's address and isWrite
flag, so only the second fault can ever be delivered; the first is silently
discarded, never queued. -/
theorem second_schedule_overwrites_first (σ : Type) (h : MoiraHost σ)
    (a1 a2 : Nat) (w1 w2 : Bool) :
    (h.scheduleBusError a1 w1).scheduleBusError a2 w2 = h.scheduleBusError a2 w2
    ∧ ((h.scheduleBusError a1 w1).scheduleBusError a2 w2).pendingBusError = true
    ∧ ((h.scheduleBusError a1 w1).scheduleBusError a2 w2).busErrorAddress = a2
    ∧ ((h.scheduleBusError a1 w1).scheduleBusError a2 w2).busErrorIsWrite = w2 :=
  ⟨rfl, rfl, rfl, rfl⟩

/-- C4: `moira_create` returns a non-null handle exactly when the contract is
present, all four required callbacks (read8, read16, write8, write16) are
present, and construction does not fail internally; and its success is
unaffected by the two optional callbacks (sync, readIrqUserVector). -/
theorem moira_create_success_iff (σ : Type) (cb : Option (moira_callbacks σ))
    (allocOk : Bool) (e0 : EngineState) (c : moira_callbacks σ)
    (s : Option (Nat → Int → σ → σ)) (r : Option (Nat → Nat → σ → Nat × σ)) :
    ((moira_create cb allocOk e0).isSome = true ↔
      ∃ c0, cb = some c0 ∧ c0.requiredPresent = true ∧ allocOk = true)
    ∧ (moira_create (some { c with sync := s, readIrqUserVector := r }) allocOk e0).isSome
        = (moira_create (some c) allocOk e0).isSome := by
  constructor
  · cases cb with
    | none => simp [moira_create]
    | some c0 => simp [moira_create_isSome, Bool.and_eq_true]
  · rw [moira_create_isSome, moira_create_isSome]
    simp [moira_callbacks.requiredPresent]

/-- C5: on the same handle, `moira_getStackFrame` always fills the caller's
buffer with vectorCode, faultAddress, functionCode, specialStatusWord all
zero and instructionRegister, statusRegister, programCounter from live
engine state; `moira_setStackFrame` writes only those three registers into
the engine, ignoring the other four fields; and the get-then-set round trip
leaves the adapter (in particular `ird`, `sr`, `pc`) unchanged. -/
theorem stackframe_roundtrip_and_fields (σ : Type) (h : MoiraHost σ)
    (buf f : moira_stackframe) :
    moira_getStackFrame h (some buf) =
      some { code := 0, addr := 0, ird := h.engine.ird, sr := h.engine.sr,
             pc := h.engine.pc, fc := 0, ssw := 0 }
    ∧ moira_setStackFrame h (moira_getStackFrame h (some buf)) = h
    ∧ moira_setStackFrame h (some f) =
        { h with engine := { h.engine with ird := f.ird, sr := f.sr, pc := f.pc } } :=
  ⟨rfl, rfl, rfl⟩

/-- C7 is corrected by this counterexample: on a concrete adapter with a
fault pending and the optional sync callback absent, the sync call does NOT
fall back to the engine's built-in default pacing — its trace is exactly the
raise of the bus error, with no forwarding event (no default pacing, no
callback) at all — so it is not true that every sync call with the callback
absent falls back to default pacing. -/
theorem sync_pending_no_default_pacing_counterexample :
    scheduledNoSyncHostW.cb.sync = none
    ∧ scheduledNoSyncHostW.pendingBusError = true
    ∧ (scheduledNoSyncHostW.sync 4 ()).trace = [Event.raiseBusError frameW]
    ∧ (scheduledNoSyncHostW.sync 4 ()).trace.filter Event.isForward = []
    ∧ (scheduledNoSyncHostW.sync 4 ()).result = Except.error frameW :=
  ⟨rfl, rfl, rfl, rfl, rfl⟩

/-- C7 amended: a sync call with no fault pending falls back to the engine's
built-in default pacing when the optional sync callback is absent and
forwards to the callback with the stored context when it is present; a sync
call with a fault pending delivers the fault and invokes neither (no
forwarding event occurs), regardless of whether the sync callback is
present.  Every interrupt-vector lookup returns 0 when the optional
readIrqUserVector callback is absent and forwards to it with the stored
context when present. -/
theorem optional_callback_defaults (σ : Type) (h : MoiraHost σ)
    (fs : Nat → Int → σ → σ) (fv : Nat → Nat → σ → Nat × σ)
    (c : Int) (level : Nat) (w : σ) :
    ({ h with pendingBusError := false, cb := { h.cb with sync := none } } : MoiraHost σ).sync c w =
      ⟨Except.ok (), { h with pendingBusError := false, cb := { h.cb with sync := none }, engine := h.engine.defaultSync c }, w, [Event.defaultPacing c]⟩
    ∧ ({ h with pendingBusError := false, cb := { h.cb with sync := some fs } } : MoiraHost σ).sync c w =
      ⟨Except.ok (), { h with pendingBusError := false, cb := { h.cb with sync := some fs } }, fs h.cb.user c w, [Event.cbSync h.cb.user c]⟩
    ∧ ({ h with pendingBusError := true } : MoiraHost σ).sync c w =
      ⟨Except.error h.pendingFrame, { h with pendingBusError := false }, w, [Event.raiseBusError h.pendingFrame]⟩
    ∧ (({ h with pendingBusError := true } : MoiraHost σ).sync c w).trace.filter Event.isForward = []
    ∧ ({ h with cb := { h.cb with readIrqUserVector := none } } : MoiraHost σ).readIrqUserVector level w
        = (0, w, [])
    ∧ ({ h with cb := { h.cb with readIrqUserVector := some fv } } : MoiraHost σ).readIrqUserVector level w
        = ((fv h.cb.user level w).1, (fv h.cb.user level w).2,
            [Event.cbReadIrqUserVector h.cb.user level (fv h.cb.user level w).1]) :=
  ⟨rfl, rfl, rfl, rfl, rfl, rfl⟩

/-- C8: a schedule operation modifies only the pending-fault slot (it sets
the flag, address and isWrite and leaves the engine state and the callback
contract untouched, raising no exception signal), and with no subsequent
access or sync call the fault stays pending with the same address and flag
across any sequence of non-access boundary operations. -/
theorem schedule_frame_effect_and_persistence (σ : Type) (h : MoiraHost σ)
    (a : Nat) (iw : Bool) (ops : List NonAccessOp) :
    h.scheduleBusError a iw =
      { h with pendingBusError := true, busErrorAddress := a, busErrorIsWrite := iw }
    ∧ (h.scheduleBusError a iw).engine = h.engine
    ∧ (h.scheduleBusError a iw).cb = h.cb
    ∧ ((h.scheduleBusError a iw).runNonAccessSeq ops).pendingBusError = true
    ∧ ((h.scheduleBusError a iw).runNonAccessSeq ops).busErrorAddress = a
    ∧ ((h.scheduleBusError a iw).runNonAccessSeq ops).busErrorIsWrite = iw := by
  obtain ⟨q1, q2, q3, _⟩ := runNonAccessSeq_slot ops (h.scheduleBusError a iw)
  exact ⟨rfl, rfl, rfl, q1, q2, q3⟩

/-- C9: calling `moira_getStackFrame` or `moira_setStackFrame` with a null
frame pointer is a no-op: the get leaves the caller's buffer untouched and
the set leaves the adapter (engine included) unchanged; neither fails. -/
theorem null_frame_pointer_noop (σ : Type) (h : MoiraHost σ) :
    moira_getStackFrame h none = none ∧ moira_setStackFrame h none = h :=
  ⟨rfl, rfl⟩

/-- C1: for every adapter in the Scheduled state, the next memory read or
write access raises, once its callback has returned, exactly one exception
signal carrying the frame built from the pending slot (vectorCode 0x0010 for
a read fault, 0x0000 for a write fault, faultAddress the scheduled address)
and the engine's current instructionRegister, statusRegister and
programCounter; afterwards the pending state is Idle and the engine state is
unchanged. -/
theorem mem_access_delivers_pending_fault (σ : Type) (h : MoiraHost σ) (w : σ)
    (op : AccessOp) (hmem : op.isMemAccess = true)
    (hreq : h.cb.requiredPresent = true) (hp : h.pendingBusError = true) :
    (h.runAccess op w).result = Except.error h.pendingFrame
    ∧ (∃ e, Event.isForward e = true
        ∧ (h.runAccess op w).trace = [e, Event.raiseBusError h.pendingFrame])
    ∧ (h.runAccess op w).host.pendingBusError = false
    ∧ (h.runAccess op w).host.engine = h.engine
    ∧ h.pendingFrame =
        { code := if h.busErrorIsWrite then 0x0000 else 0x0010,
          addr := h.busErrorAddress, ird := h.engine.ird, sr := h.engine.sr,
          pc := h.engine.pc } := by
  cases op with
  | sync c => simp [AccessOp.isMemAccess] at hmem
  | read8 a =>
      refine ⟨?_, ⟨Event.cbRead8 h.cb.user a
          ((h.cb.read8.getD (fun _ _ w0 => (0, w0))) h.cb.user a w).1, rfl, ?_⟩,
          ?_, ?_, rfl⟩ <;>
        simp [MoiraHost.runAccess, MoiraHost.read8,
          MoiraHost.throwPendingBusErrorIfNeeded, hp, Except.map]
  | read16 a =>
      refine ⟨?_, ⟨Event.cbRead16 h.cb.user a
          ((h.cb.read16.getD (fun _ _ w0 => (0, w0))) h.cb.user a w).1, rfl, ?_⟩,
          ?_, ?_, rfl⟩ <;>
        simp [MoiraHost.runAccess, MoiraHost.read16,
          MoiraHost.throwPendingBusErrorIfNeeded, hp, Except.map]
  | write8 a v =>
      refine ⟨?_, ⟨Event.cbWrite8 h.cb.user a v, rfl, ?_⟩, ?_, ?_, rfl⟩ <;>
        simp [MoiraHost.runAccess, MoiraHost.write8,
          MoiraHost.throwPendingBusErrorIfNeeded, hp]
  | write16 a v =>
      refine ⟨?_, ⟨Event.cbWrite16 h.cb.user a v, rfl, ?_⟩, ?_, ?_, rfl⟩ <;>
        simp [MoiraHost.runAccess, MoiraHost.write16,
          MoiraHost.throwPendingBusErrorIfNeeded, hp]

/-- Witness for C1 at the spec's concrete scenario: contract with all
callbacks, PC = 0x1000, SR = 0x2700, IRD = 0x4E71, read fault scheduled at
0xABCDEF, one read at 0x200. -/
theorem mem_access_delivers_pending_fault_witness :
    (AccessOp.read8 0x200).isMemAccess = true
    ∧ scheduledHostW.cb.requiredPresent = true
    ∧ scheduledHostW.pendingBusError = true
    ∧ scheduledHostW.pendingFrame = frameW
    ∧ ((scheduledHostW.runAccess (AccessOp.read8 0x200) ()).result
          = Except.error scheduledHostW.pendingFrame
        ∧ (∃ e, Event.isForward e = true
            ∧ (scheduledHostW.runAccess (AccessOp.read8 0x200) ()).trace
                = [e, Event.raiseBusError scheduledHostW.pendingFrame])
        ∧ (scheduledHostW.runAccess (AccessOp.read8 0x200) ()).host.pendingBusError = false
        ∧ (scheduledHostW.runAccess (AccessOp.read8 0x200) ()).host.engine
            = scheduledHostW.engine
        ∧ scheduledHostW.pendingFrame =
            { code := if scheduledHostW.busErrorIsWrite then 0x0000 else 0x0010,
              addr := scheduledHostW.busErrorAddress, ird := scheduledHostW.engine.ird,
              sr := scheduledHostW.engine.sr, pc := scheduledHostW.engine.pc }) :=
  ⟨rfl, rfl, rfl, rfl,
    mem_access_delivers_pending_fault Unit scheduledHostW () (AccessOp.read8 0x200)
      rfl rfl rfl⟩

/-- C2 is corrected by this counterexample: with a fault pending and the
optional sync callback present, a sync call delivers the fault as its very
first event — the trace is exactly the raise, no callback and no default
pacing precede it — so the delivery check does not run after the forwarded
callback on sync calls. -/
theorem sync_delivers_before_callback_counterexample :
    (scheduledHostW.runAccess (AccessOp.sync 4) ()).trace = [Event.raiseBusError frameW]
    ∧ forwardBeforeDelivery ((scheduledHostW.runAccess (AccessOp.sync 4) ()).trace) = false
    ∧ scheduledHostW.cb.sync.isSome = true :=
  ⟨rfl, rfl, rfl⟩

/-- C2 amended: for every memory read and write call the pending-fault
delivery check runs after the forwarded callback has completed (every
delivery in the trace is preceded by a forwarding event); for sync the check
runs first: a pending fault is delivered at the start of the call and the
sync callback (or default pacing) is not invoked at all in that case. -/
theorem delivery_check_ordering (σ : Type) (h : MoiraHost σ) (w : σ)
    (op : AccessOp) (c : Int) (hmem : op.isMemAccess = true) :
    forwardBeforeDelivery (h.runAccess op w).trace = true
    ∧ (h.pendingBusError = true →
        (h.sync c w).trace = [Event.raiseBusError h.pendingFrame]
        ∧ (h.sync c w).result = Except.error h.pendingFrame) := by
  constructor
  · cases op with
    | sync c => simp [AccessOp.isMemAccess] at hmem
    | read8 a =>
        cases hp : h.pendingBusError <;>
          simp [MoiraHost.runAccess, MoiraHost.read8,
            MoiraHost.throwPendingBusErrorIfNeeded, hp, forwardBeforeDelivery,
            forwardBeforeDeliveryAux, Event.isDelivery, Event.isForward]
    | read16 a =>
        cases hp : h.pendingBusError <;>
          simp [MoiraHost.runAccess, MoiraHost.read16,
            MoiraHost.throwPendingBusErrorIfNeeded, hp, forwardBeforeDelivery,
            forwardBeforeDeliveryAux, Event.isDelivery, Event.isForward]
    | write8 a v =>
        cases hp : h.pendingBusError <;>
          simp [MoiraHost.runAccess, MoiraHost.write8,
            MoiraHost.throwPendingBusErrorIfNeeded, hp, forwardBeforeDelivery,
            forwardBeforeDeliveryAux, Event.isDelivery, Event.isForward]
    | write16 a v =>
        cases hp : h.pendingBusError <;>
          simp [MoiraHost.runAccess, MoiraHost.write16,
            MoiraHost.throwPendingBusErrorIfNeeded, hp, forwardBeforeDelivery,
            forwardBeforeDeliveryAux, Event.isDelivery, Event.isForward]
  · intro hp
    constructor <;>
      simp [MoiraHost.sync, MoiraHost.throwPendingBusErrorIfNeeded, hp]

/-- Witness for the amended C2 at a concrete scheduled adapter: a read at
0x200 (delivery after the callback) and a sync call (delivery first). -/
theorem delivery_check_ordering_witness :
    (AccessOp.read8 0x200).isMemAccess = true
    ∧ (forwardBeforeDelivery
          ((scheduledHostW.runAccess (AccessOp.read8 0x200) ()).trace) = true
        ∧ (scheduledHostW.pendingBusError = true →
            (scheduledHostW.sync 4 ()).trace
                = [Event.raiseBusError scheduledHostW.pendingFrame]
            ∧ (scheduledHostW.sync 4 ()).result
                = Except.error scheduledHostW.pendingFrame)) :=
  ⟨rfl, delivery_check_ordering Unit scheduledHostW () (AccessOp.read8 0x200) 4 rfl⟩

/-- C6: for every adapter freshly constructed by `moira_create` on which no
schedule operation has been performed, every sequence of reads, writes and
sync calls completes normally: no bus-error exception signal is raised and
the pending state stays Idle. -/
theorem no_schedule_no_exception (σ : Type) (cb : moira_callbacks σ) (k : Bool)
    (e0 : EngineState) (h : MoiraHost σ)
    (hc : moira_create (some cb) k e0 = some h)
    (ops : List AccessOp) (w : σ) :
    (h.runAccessSeq ops w).result = Except.ok ()
    ∧ (h.runAccessSeq ops w).trace.filter Event.isDelivery = []
    ∧ (h.runAccessSeq ops w).host.pendingBusError = false := by
  have hini := (moira_create_some_eq cb k e0 h hc).1
  have hp : h.pendingBusError = false := by rw [hini]; rfl
  exact runAccessSeq_idle ops h w hp

/-- Witness for C6: the concrete contract and engine state, a five-operation
access sequence, no fault ever raised. -/
theorem no_schedule_no_exception_witness :
    moira_create (some cbW) true e0W = some hostW
    ∧ ((hostW.runAccessSeq opsW ()).result = Except.ok ()
        ∧ (hostW.runAccessSeq opsW ()).trace.filter Event.isDelivery = []
        ∧ (hostW.runAccessSeq opsW ()).host.pendingBusError = false) :=
  ⟨rfl, no_schedule_no_exception Unit cbW true e0W hostW rfl opsW ()⟩

/-- C10: the callback contract is copied into the adapter at construction;
no read, write, sync, schedule or non-access boundary operation ever
modifies the stored contract; and every forwarded callback invocation (in
any operation's trace) passes exactly the context value stored at
construction time. -/
theorem callback_contract_immutable (σ : Type) (cb : moira_callbacks σ) (k : Bool)
    (e0 : EngineState) (h : MoiraHost σ)
    (hc : moira_create (some cb) k e0 = some h) :
    h.cb = cb
    ∧ (∀ (g : MoiraHost σ) (op : AccessOp) (w : σ),
        (g.runAccess op w).host.cb = g.cb
        ∧ ∀ e ∈ (g.runAccess op w).trace,
            e.userOf = none ∨ e.userOf = some g.cb.user)
    ∧ (∀ (g : MoiraHost σ) (a : Nat) (iw : Bool), (g.scheduleBusError a iw).cb = g.cb)
    ∧ (∀ (g : MoiraHost σ) (nop : NonAccessOp), (g.runNonAccess nop).cb = g.cb)
    ∧ (∀ (g : MoiraHost σ) (level : Nat) (w : σ),
        ∀ e ∈ (g.readIrqUserVector level w).2.2, e.userOf = some g.cb.user) := by
  refine ⟨?_, ?_, ?_, ?_, ?_⟩
  · rw [(moira_create_some_eq cb k e0 h hc).1]
    rfl
  · intro g op w
    constructor
    · cases op with
      | sync c =>
          cases hp : g.pendingBusError <;> cases hs : g.cb.sync <;>
            simp [MoiraHost.runAccess, MoiraHost.sync,
              MoiraHost.throwPendingBusErrorIfNeeded, hp, hs]
      | read8 a =>
          cases hp : g.pendingBusError <;>
            simp [MoiraHost.runAccess, MoiraHost.read8,
              MoiraHost.throwPendingBusErrorIfNeeded, hp]
      | read16 a =>
          cases hp : g.pendingBusError <;>
            simp [MoiraHost.runAccess, MoiraHost.read16,
              MoiraHost.throwPendingBusErrorIfNeeded, hp]
      | write8 a v =>
          cases hp : g.pendingBusError <;>
            simp [MoiraHost.runAccess, MoiraHost.write8,
              MoiraHost.throwPendingBusErrorIfNeeded, hp]
      | write16 a v =>
          cases hp : g.pendingBusError <;>
            simp [MoiraHost.runAccess, MoiraHost.write16,
              MoiraHost.throwPendingBusErrorIfNeeded, hp]
    · intro e he
      cases op with
      | sync c =>
          cases hp : g.pendingBusError <;> cases hs : g.cb.sync <;>
            simp [MoiraHost.runAccess, MoiraHost.sync,
              MoiraHost.throwPendingBusErrorIfNeeded, hp, hs] at he <;>
            first
              | (subst he; simp [Event.userOf])
              | (rcases he with he | he <;> subst he <;> simp [Event.userOf])
      | read8 a =>
          cases hp : g.pendingBusError <;>
            simp [MoiraHost.runAccess, MoiraHost.read8,
              MoiraHost.throwPendingBusErrorIfNeeded, hp] at he <;>
            first
              | (subst he; simp [Event.userOf])
              | (rcases he with he | he <;> subst he <;> simp [Event.userOf])
      | read16 a =>
          cases hp : g.pendingBusError <;>
            simp [MoiraHost.runAccess, MoiraHost.read16,
              MoiraHost.throwPendingBusErrorIfNeeded, hp] at he <;>
            first
              | (subst he; simp [Event.userOf])
              | (rcases he with he | he <;> subst he <;> simp [Event.userOf])
      | write8 a v =>
          cases hp : g.pendingBusError <;>
            simp [MoiraHost.runAccess, MoiraHost.write8,
              MoiraHost.throwPendingBusErrorIfNeeded, hp] at he <;>
            first
              | (subst he; simp [Event.userOf])
              | (rcases he with he | he <;> subst he <;> simp [Event.userOf])
      | write16 a v =>
          cases hp : g.pendingBusError <;>
            simp [MoiraHost.runAccess, MoiraHost.write16,
              MoiraHost.throwPendingBusErrorIfNeeded, hp] at he <;>
            first
              | (subst he; simp [Event.userOf])
              | (rcases he with he | he <;> subst he <;> simp [Event.userOf])
  · intro g a iw
    rfl
  · intro g nop
    exact (runNonAccess_slot g nop).2.2.2
  · intro g level w e he
    cases hv : g.cb.readIrqUserVector with
    | none => simp [MoiraHost.readIrqUserVector, hv] at he
    | some f =>
        simp [MoiraHost.readIrqUserVector, hv] at he
        subst he
        simp [Event.userOf]

/-- Witness for C10 at the concrete contract: the stored contract equals
`cbW` and all preservation statements hold. -/
theorem callback_contract_immutable_witness :
    moira_create (some cbW) true e0W = some hostW
    ∧ (hostW.cb = cbW
        ∧ (∀ (g : MoiraHost Unit) (op : AccessOp) (w : Unit),
            (g.runAccess op w).host.cb = g.cb
            ∧ ∀ e ∈ (g.runAccess op w).trace,
                e.userOf = none ∨ e.userOf = some g.cb.user)
        ∧ (∀ (g : MoiraHost Unit) (a : Nat) (iw : Bool),
            (g.scheduleBusError a iw).cb = g.cb)
        ∧ (∀ (g : MoiraHost Unit) (nop : NonAccessOp), (g.runNonAccess nop).cb = g.cb)
        ∧ (∀ (g : MoiraHost Unit) (level : Nat) (w : Unit),
            ∀ e ∈ (g.readIrqUserVector level w).2.2, e.userOf = some g.cb.user)) :=
  ⟨rfl, callback_contract_immutable Unit cbW true e0W hostW rfl⟩
